import Mathlib

/-!
Shallow embedding of py-isopropanol.

This file embeds the repository's two core modules:

* `iso.py` — fixed-width peer addressing (`PeerAddr`) and the wire packet
  format (`Packet.from_bytes` / `Packet.to_bytes`);
* `abstract_telegram.py` — the request scheduler (`BotController`): the
  request queue (`queue_request`), the credential round-robin dispatch loop
  (`queue_task`), call execution and error delivery (`method`,
  `request_task`), and the long-poll loop (`poll_posts`).

Bytes are modelled as `Fin 256` values, byte strings as `List Byte`.
Python exceptions are modelled with `Except PyError`.  `datetime` instants
are modelled as rationals (seconds); `timedelta(seconds=r)` is just `r`.
-/

abbrev Byte := Fin 256

namespace Iso

/-- The constant `ADDR_LEN = 2` from iso.py. -/
def ADDR_LEN : Nat := 2

/-- The Python exceptions the embedded code can raise. -/
inductive PyError where
  | valueError (msg : String)
  | overflowError (msg : String)
  deriving DecidableEq, Repr

/-- Python's `int.to_bytes(length, byteorder="little", signed=False)`:
raises `OverflowError` for a negative value or one that does not fit in
`length` bytes, otherwise returns the `length` little-endian bytes. -/
def intToBytesLE (value : Int) (length : Nat) : Except PyError (List Byte) :=
  if value < 0 then
    .error (.overflowError "cannot convert negative int to unsigned")
  else if (256 : Int) ^ length ≤ value then
    .error (.overflowError "int too big to convert")
  else
    .ok ((List.range length).map
      (fun i => ⟨value.toNat / 256 ^ i % 256, Nat.mod_lt _ (by omega)⟩))

/-- Python's `int.from_bytes(data, byteorder="little", signed=False)`:
accepts a byte string of any length and returns its little-endian value. -/
def intFromBytesLE (data : List Byte) : Nat :=
  data.foldr (fun b acc => b.val + 256 * acc) 0

/-- The constructor check of `PeerAddr` (iso.py lines 21-25): validates the value by
attempting `value.to_bytes(ADDR_LEN, signed=False, byteorder="little")`,
turning an `OverflowError` into `ValueError`.  A `PeerAddr` is an `int`
subclass, so the successful result is the value itself. -/
def PeerAddr.make (value : Int) : Except PyError Int :=
  match intToBytesLE value ADDR_LEN with
  | .error _ => .error (.valueError "Addresses must fit in 2 bytes")
  | .ok _ => .ok value

/-- The static method `PeerAddr.from_bytes` (iso.py lines 27-33) with the default arguments:
`PeerAddr(int.from_bytes(data, byteorder="little", signed=False))`. -/
def PeerAddr.from_bytes (data : List Byte) : Except PyError Int :=
  PeerAddr.make (intFromBytesLE data)

/-- The method `PeerAddr.to_bytes` with the default arguments: two little-endian
bytes, `OverflowError` when out of range. -/
def PeerAddr.to_bytes (value : Int) : Except PyError (List Byte) :=
  intToBytesLE value ADDR_LEN

/-- The `Packet` dataclass: source address, destination address, payload. -/
structure Packet where
  saddr : Int
  daddr : Int
  payload : List Byte
  deriving DecidableEq, Repr

/-- The class attribute `Packet.magic = "xISO"`. -/
def Packet.magic : String := "xISO"

/-- The bytes `Packet.magic.encode("utf8")`: the UTF-8 bytes of `"xISO"`
(`x` = 120, `I` = 73, `S` = 83, `O` = 79). -/
def Packet.magicBytes : List Byte := [120, 73, 83, 79]

/-- The class attribute `Packet.header_size = 2 * ADDR_LEN + len(magic.encode("utf8"))`, which is 8. -/
def Packet.header_size : Nat := 2 * ADDR_LEN + Packet.magicBytes.length

/-- The static method `Packet.from_bytes` (iso.py lines 52-67): reject a buffer shorter than
`header_size`; otherwise read `ADDR_LEN` bytes for the source address,
the next `ADDR_LEN` bytes for the destination address, and take the rest
of the stream as the payload. -/
def Packet.from_bytes (data : List Byte) : Except PyError Packet :=
  if data.length < Packet.header_size then
    .error (.valueError "buffer is too small to form a packet")
  else
    match PeerAddr.from_bytes (data.take ADDR_LEN),
        PeerAddr.from_bytes ((data.drop ADDR_LEN).take ADDR_LEN) with
    | .ok saddr, .ok daddr =>
      .ok { saddr := saddr, daddr := daddr, payload := (data.drop ADDR_LEN).drop ADDR_LEN }
    | .error e, _ => .error e
    | .ok _, .error e => .error e

/-- The method `Packet.to_bytes` (iso.py lines 69-76): write the source address bytes,
then the destination address bytes, then the payload. -/
def Packet.to_bytes (p : Packet) : Except PyError (List Byte) :=
  match PeerAddr.to_bytes p.saddr, PeerAddr.to_bytes p.daddr with
  | .ok sb, .ok db => .ok (sb ++ db ++ p.payload)
  | .error e, _ => .error e
  | .ok _, .error e => .error e

end Iso

namespace AbstractTelegram

/-- The `JSONAtomic` type alias of abstract_telegram.py
(`dict | list | str | int | float | bool | None`); dictionaries are
association lists.  (The `float` alternative is omitted: no embedded
operation inspects a float value.) -/
inductive JSONAtomic where
  | obj (fields : List (String × JSONAtomic))
  | arr (items : List JSONAtomic)
  | str (s : String)
  | int (n : Int)
  | bool (b : Bool)
  | null

/-- The `Message` dataclass: `text`, `id`, `chat_id`. -/
structure Message where
  text : String
  id : Int
  chat_id : Int
  deriving DecidableEq, Repr

/-- A `channel_post` object as `poll_posts` reads it: possibly a `"text"`
key (absent for non-text posts), plus `"message_id"` and `"chat_id"`. -/
structure ChannelPost where
  text : Option String
  message_id : Int
  chat_id : Int
  deriving DecidableEq, Repr

/-- One item of a `getUpdates` result: an `"update_id"` and a
`"channel_post"` object. -/
structure Update where
  update_id : Int
  channel_post : ChannelPost
  deriving DecidableEq, Repr

/-- The static method `Message.from_dict` applied to a `channel_post` object whose `"text"`
key is present with value `t`. -/
def Message.from_dict (p : ChannelPost) (t : String) : Message :=
  { text := t, id := p.message_id, chat_id := p.chat_id }

/-- The errors a dispatched call can deliver: `TelegramError(code, text)`
from a backend-reported failure, `NetworkError` from a transport failure
(telegram_aiohttp.py raises it from any `http_get_json` exception). -/
inductive CallError where
  | telegramError (code : Int) (text : String)
  | networkError
  deriving Repr

/-- The `BotToken` dataclass: credential key and `last_used` instant. -/
structure BotToken where
  key : String
  last_used : ℚ
  deriving DecidableEq, Repr

/-- The class attribute `BotController.api_ratelimit_secs = 0.5`. -/
def api_ratelimit_secs : ℚ := 1 / 2

/-- A `QueuedRequest` without its future: method name and arguments.  The
future is modelled separately as an `Option (Except CallError JSONAtomic)`
(`none` while unresolved). -/
structure QueuedRequest where
  method : String
  args : List (String × JSONAtomic)

/-- The eligibility test of the dispatch loop (abstract_telegram.py line
90): `datetime.now() - token.last_used > timedelta(seconds=api_ratelimit_secs)`. -/
def tokenEligible (now : ℚ) (t : BotToken) : Bool :=
  decide (now - t.last_used > api_ratelimit_secs)

/-- One scan of the credential pool by the dispatch loop at instant `now`
(abstract_telegram.py lines 89-95).  `for token in cycle(self.tokens)`
builds a fresh cycle for each dequeued request, so the scan starts at the
head of `self.tokens`; the first token whose cooldown has elapsed is
selected and its `last_used` is set to `now` at that moment (before the
spawned call completes).  `none` means no token is currently eligible (the
code keeps cycling with `await asyncio.sleep(0)` until time advances). -/
def scanSelect (now : ℚ) : List BotToken → Option (Nat × List BotToken)
  | [] => none
  | t :: rest =>
    if tokenEligible now t then
      some (0, { t with last_used := now } :: rest)
    else
      (scanSelect now rest).map (fun p => (p.1 + 1, t :: p.2))

/-- The selection rule the specification describes, for comparison with
`scanSelect`: scan the pool in round-robin order starting at `cursor`,
the position where the previous request's scan left off, wrapping around;
return the index of the first eligible credential. -/
def scanSelectResumed (now : ℚ) (tokens : List BotToken) (cursor : Nat) : Option Nat :=
  ((List.range tokens.length).map (fun k => (cursor + k) % tokens.length)).find?
    (fun i => match tokens[i]? with
      | some t => tokenEligible now t
      | none => false)

/-- The phases of one `queue_request` call (abstract_telegram.py lines
130-137) as an async coroutine: before running; suspended after
`await self.request_queue.put(request)` while `await request.future` waits
for the dispatch loop to resolve the future; and returned with the
future's value (`return await request.future` re-raises a stored error). -/
inductive QRPhase where
  | start
  | enqueued
  | returned (result : Except CallError JSONAtomic)

/-- The state visible to one `queue_request` call: the request queue, this
request's future (`none` while unresolved) and the coroutine's phase. -/
structure QRState where
  queue : List QueuedRequest
  future : Option (Except CallError JSONAtomic)
  phase : QRPhase

/-- One step of the `queue_request` coroutine for request `req`: from
`start`, create an unresolved future, append the request to the FIFO queue
(`Queue.put` never blocks on an unbounded queue) and reach `enqueued`;
from `enqueued`, the coroutine can resume only once the future has been
resolved, and then returns the future's value.  `none` means the caller is
suspended and cannot take a step. -/
def qrStep (req : QueuedRequest) (s : QRState) : Option QRState :=
  match s.phase with
  | .start => some { queue := s.queue ++ [req], future := none, phase := .enqueued }
  | .enqueued =>
    match s.future with
    | some r => some { s with phase := .returned r }
    | none => none
  | .returned _ => none

/-- The backend's parsed JSON response as `BotController.method` reads it
(abstract_telegram.py lines 120-128): an `"ok"` flag and, depending on it,
`"error_code"`/`"description"` or `"result"`. -/
structure HttpResponse where
  ok : Bool
  error_code : Int
  description : String
  result : JSONAtomic

/-- The coroutine `BotController.method` (lines 97-128), with the transport call
`http_get_json` abstracted as its outcome: a transport failure
(`NetworkError`, as raised by the telegram_aiohttp implementation) or a
parsed response.  On `ok = false` it raises
`TelegramError(error_code, description)`; otherwise it returns `result`. -/
def method (transport : Except Unit HttpResponse) : Except CallError JSONAtomic :=
  match transport with
  | .error _ => .error .networkError
  | .ok resp =>
    if resp.ok then .ok resp.result
    else .error (.telegramError resp.error_code resp.description)

/-- The inner coroutine `request_task` (abstract_telegram.py lines 77-85): run `method`; if it
raises, `future.set_exception(e)`, else `future.set_result(result)`.  The
returned value is the resolved state of the request's future: the task
always resolves the future and never lets the exception propagate (the
`try`/`except Exception` around the call), so nothing is thrown into the
scheduling loop that spawned it. -/
def request_task (transport : Except Unit HttpResponse) :
    Option (Except CallError JSONAtomic) :=
  match method transport with
  | .error e => some (.error e)
  | .ok result => some (.ok result)

/-- The coroutine `BotController.poll_posts` (abstract_telegram.py lines 145-165), with
the backend's raw `getUpdates` answer `res` as a parameter: on an empty
result return `[]` and leave `update_offset` unchanged; otherwise set
`update_offset` to `res[-1]["update_id"]` and keep, in order, a `Message`
for every update whose `channel_post` has a `"text"` key.  Returns the new
offset and the retained messages. -/
def poll_posts (update_offset : Int) (res : List Update) : Int × List Message :=
  match res with
  | [] => (update_offset, [])
  | u :: rest =>
    let newOffset := ((u :: rest).getLast (by simp)).update_id
    (newOffset,
      (u :: rest).filterMap
        (fun v => (v.channel_post.text).map (fun t => Message.from_dict v.channel_post t)))

end AbstractTelegram

namespace Iso

/-! Helper lemmas about the byte-level primitives. -/

/-- The little-endian value of a byte string is below `256 ^ length`. -/
theorem intFromBytesLE_lt (l : List Byte) : intFromBytesLE l < 256 ^ l.length := by
  induction l with
  | nil => simp [intFromBytesLE]
  | cons b rest ih =>
    have hb := b.isLt
    have hstep : intFromBytesLE (b :: rest) = b.val + 256 * intFromBytesLE rest := rfl
    have h1 : intFromBytesLE rest + 1 ≤ 256 ^ rest.length := ih
    calc intFromBytesLE (b :: rest) = b.val + 256 * intFromBytesLE rest := hstep
      _ ≤ 255 + 256 * intFromBytesLE rest := by omega
      _ < 256 * (intFromBytesLE rest + 1) := by omega
      _ ≤ 256 * 256 ^ rest.length := Nat.mul_le_mul_left _ h1
      _ = 256 ^ (rest.length + 1) := by ring
      _ = 256 ^ (b :: rest).length := by simp

/-- Evaluating `PeerAddr.from_bytes`: it parses a byte string of any
length and fails exactly when the little-endian value does not fit in
2 bytes. -/
theorem PeerAddr.from_bytes_check (data : List Byte) :
    PeerAddr.from_bytes data =
      if intFromBytesLE data < 65536 then .ok (intFromBytesLE data : Int)
      else .error (.valueError "Addresses must fit in 2 bytes") := by
  have hpow : (256 : Int) ^ ADDR_LEN = 65536 := by norm_num [ADDR_LEN]
  unfold PeerAddr.from_bytes PeerAddr.make intToBytesLE
  rw [hpow]
  rcases lt_or_le (intFromBytesLE data) 65536 with h | h
  · rw [if_pos h, if_neg (by exact_mod_cast not_lt.mpr (Int.natCast_nonneg _)),
      if_neg (by exact_mod_cast not_le.mpr h)]
  · rw [if_neg (not_lt.mpr h), if_neg (by exact_mod_cast not_lt.mpr (Int.natCast_nonneg _)),
      if_pos (by exact_mod_cast h)]

/-- Converting a natural number below 65536 to two little-endian bytes
succeeds and is inverted by `intFromBytesLE`. -/
theorem intToBytesLE_addr (n : Nat) (h : n < 65536) :
    ∃ bs : List Byte, intToBytesLE (n : Int) ADDR_LEN = .ok bs ∧
      bs.length = 2 ∧ intFromBytesLE bs = n := by
  have hpow : (256 : Int) ^ ADDR_LEN = 65536 := by norm_num [ADDR_LEN]
  refine ⟨(List.range ADDR_LEN).map
      (fun i => ⟨(n : Int).toNat / 256 ^ i % 256, Nat.mod_lt _ (by omega)⟩), ?_, ?_, ?_⟩
  · unfold intToBytesLE
    rw [hpow, if_neg (by exact_mod_cast not_lt.mpr (Nat.zero_le n)),
      if_neg (by exact_mod_cast not_le.mpr h)]
  · simp [ADDR_LEN]
  · have hr : List.range ADDR_LEN = [0, 1] := rfl
    rw [hr]
    simp only [List.map_cons, List.map_nil, intFromBytesLE, List.foldr_cons, List.foldr_nil,
      Int.toNat_natCast, pow_zero, pow_one, Nat.div_one]
    omega

end Iso

namespace Iso

/-- C6: `Packet.from_bytes` applied to any buffer shorter than 8 bytes
fails with exactly the framing `ValueError`; it neither raises another
error nor returns a packet. -/
theorem from_bytes_short_buffer (data : List Byte) (h : data.length < 8) :
    Packet.from_bytes data =
      .error (.valueError "buffer is too small to form a packet") := by
  have hh : data.length < Packet.header_size := by
    have : Packet.header_size = 8 := by
      simp [Packet.header_size, Packet.magicBytes, ADDR_LEN]
    omega
  unfold Packet.from_bytes
  rw [if_pos hh]

/-- Witness for C6 at the concrete 3-byte buffer `[1, 2, 3]`. -/
theorem from_bytes_short_buffer_witness :
    Packet.from_bytes [1, 2, 3] =
      .error (.valueError "buffer is too small to form a packet") :=
  from_bytes_short_buffer [1, 2, 3] (by decide)

/-- C7: constructing a `PeerAddr` from an integer in `[0, 65535]` succeeds
(the value is the address), and from any integer outside that range fails
with the validation `ValueError`. -/
theorem peeraddr_make_range (v : Int) :
    (0 ≤ v ∧ v ≤ 65535 → PeerAddr.make v = .ok v) ∧
    (v < 0 ∨ 65535 < v →
      PeerAddr.make v = .error (.valueError "Addresses must fit in 2 bytes")) := by
  have hpow : (256 : Int) ^ ADDR_LEN = 65536 := by norm_num [ADDR_LEN]
  constructor
  · rintro ⟨h0, h1⟩
    unfold PeerAddr.make intToBytesLE
    rw [hpow, if_neg (by omega), if_neg (by omega)]
  · intro h
    unfold PeerAddr.make intToBytesLE
    rw [hpow]
    rcases h with h | h
    · rw [if_pos h]
    · rw [if_neg (by omega), if_pos (by omega)]

/-- Witness for C7: address 42 is accepted, 70000 is rejected. -/
theorem peeraddr_make_range_witness :
    PeerAddr.make 42 = .ok 42 ∧
    PeerAddr.make 70000 = .error (.valueError "Addresses must fit in 2 bytes") :=
  ⟨(peeraddr_make_range 42).1 (by norm_num), (peeraddr_make_range 70000).2 (by norm_num)⟩

/-- Counterexample to C8: a 1-byte slice (length ≠ 2) decodes without any
error, so address decoding does not fail for every slice whose length is
not exactly 2. -/
theorem peeraddr_from_bytes_len1_ok :
    PeerAddr.from_bytes [5] = .ok 5 ∧ ([5] : List Byte).length ≠ 2 :=
  ⟨rfl, by decide⟩

/-- C8 (amended): `PeerAddr.from_bytes` accepts a byte slice of any
length, returning its little-endian value; it fails — with the
address-range `ValueError` — exactly when that value exceeds 65535, which
never happens for slices of length at most 2. -/
theorem peeraddr_from_bytes_any_length (data : List Byte) :
    (PeerAddr.from_bytes data =
      if intFromBytesLE data < 65536 then .ok (intFromBytesLE data : Int)
      else .error (.valueError "Addresses must fit in 2 bytes")) ∧
    (data.length ≤ 2 → PeerAddr.from_bytes data = .ok (intFromBytesLE data : Int)) := by
  refine ⟨PeerAddr.from_bytes_check data, fun h => ?_⟩
  rw [PeerAddr.from_bytes_check, if_pos]
  calc intFromBytesLE data < 256 ^ data.length := intFromBytesLE_lt data
    _ ≤ 256 ^ 2 := Nat.pow_le_pow_right (by omega) h
    _ = 65536 := by norm_num

/-- Witness for amended C8: a 3-byte slice parses (value 1), and a 1-byte
slice succeeds. -/
theorem peeraddr_from_bytes_any_length_witness :
    (PeerAddr.from_bytes [1, 0, 0] =
      if intFromBytesLE [1, 0, 0] < 65536 then .ok (intFromBytesLE [1, 0, 0] : Int)
      else .error (.valueError "Addresses must fit in 2 bytes")) ∧
    PeerAddr.from_bytes [1] = .ok (intFromBytesLE [1] : Int) :=
  ⟨(peeraddr_from_bytes_any_length [1, 0, 0]).1,
   (peeraddr_from_bytes_any_length [1]).2 (by decide)⟩

/-- C10: for every buffer of at least 8 bytes, whatever its content,
`Packet.from_bytes` succeeds; the source address is the little-endian
value of bytes 0-1, the destination address that of bytes 2-3, and the
payload is everything from offset 4 on.  In particular no magic marker is
read or verified. -/
theorem from_bytes_ignores_magic (data : List Byte) (h : 8 ≤ data.length) :
    Packet.from_bytes data = .ok
      { saddr := (intFromBytesLE (data.take 2) : Int),
        daddr := (intFromBytesLE ((data.drop 2).take 2) : Int),
        payload := (data.drop 2).drop 2 } := by
  have hh : ¬(data.length < Packet.header_size) := by
    have : Packet.header_size = 8 := by
      simp [Packet.header_size, Packet.magicBytes, ADDR_LEN]
    omega
  have hs : intFromBytesLE (data.take ADDR_LEN) < 65536 := by
    have hl : (data.take ADDR_LEN).length = 2 := by simp [ADDR_LEN]; omega
    have := intFromBytesLE_lt (data.take ADDR_LEN)
    rw [hl] at this
    omega
  have hd : intFromBytesLE ((data.drop ADDR_LEN).take ADDR_LEN) < 65536 := by
    have hl : ((data.drop ADDR_LEN).take ADDR_LEN).length = 2 := by simp [ADDR_LEN]; omega
    have := intFromBytesLE_lt ((data.drop ADDR_LEN).take ADDR_LEN)
    rw [hl] at this
    omega
  unfold Packet.from_bytes
  rw [if_neg hh, PeerAddr.from_bytes_check, PeerAddr.from_bytes_check, if_pos hs, if_pos hd]
  simp [ADDR_LEN]

/-- Witness for C10: a 9-byte buffer whose first four bytes are nothing
like the magic marker still decodes. -/
theorem from_bytes_ignores_magic_witness :
    Packet.from_bytes [255, 255, 254, 255, 9, 8, 7, 6, 5] = .ok
      { saddr := (intFromBytesLE (([255, 255, 254, 255, 9, 8, 7, 6, 5] : List Byte).take 2) : Int),
        daddr := (intFromBytesLE ((([255, 255, 254, 255, 9, 8, 7, 6, 5] : List Byte).drop 2).take 2) : Int),
        payload := (([255, 255, 254, 255, 9, 8, 7, 6, 5] : List Byte).drop 2).drop 2 } :=
  from_bytes_ignores_magic [255, 255, 254, 255, 9, 8, 7, 6, 5] (by decide)

end Iso

namespace Iso

/-- Counterexample to C2: serializing the packet with source 0,
destination 0 and payload `[1, 2, 3, 4]` yields the 8 bytes
`[0, 0, 0, 0, 1, 2, 3, 4]` — addresses then payload — and not the byte
string that starts with the 4-byte magic marker the claim describes: the
marker is never written, so the fixed part before the payload is 4 bytes,
not 8. -/
theorem to_bytes_writes_no_magic :
    Packet.to_bytes { saddr := 0, daddr := 0, payload := [1, 2, 3, 4] } =
      .ok [0, 0, 0, 0, 1, 2, 3, 4] ∧
    ([0, 0, 0, 0, 1, 2, 3, 4] : List Byte) ≠
      Packet.magicBytes ++ [0, 0] ++ [0, 0] ++ [1, 2, 3, 4] :=
  ⟨rfl, by decide⟩

/-- C2 (amended): for a packet whose two addresses fit in 2 bytes,
`Packet.to_bytes` returns the concatenation of the 2-byte little-endian
source address, the 2-byte little-endian destination address and the
payload, in that order — the magic marker is not part of the output, so
the fixed prefix before the payload is 4 bytes (even though the
`header_size` constant used by the decoder's length check is 8). -/
theorem to_bytes_layout (p : Packet) (hs0 : 0 ≤ p.saddr) (hs1 : p.saddr < 65536)
    (hd0 : 0 ≤ p.daddr) (hd1 : p.daddr < 65536) :
    ∃ sb db : List Byte, sb.length = ADDR_LEN ∧ db.length = ADDR_LEN ∧
      (intFromBytesLE sb : Int) = p.saddr ∧ (intFromBytesLE db : Int) = p.daddr ∧
      p.to_bytes = .ok (sb ++ db ++ p.payload) := by
  obtain ⟨sb, hsb, hsl, hsv⟩ := intToBytesLE_addr p.saddr.toNat (by omega)
  obtain ⟨db, hdb, hdl, hdv⟩ := intToBytesLE_addr p.daddr.toNat (by omega)
  rw [Int.toNat_of_nonneg hs0] at hsb
  rw [Int.toNat_of_nonneg hd0] at hdb
  refine ⟨sb, db, by simp [ADDR_LEN, hsl], by simp [ADDR_LEN, hdl], ?_, ?_, ?_⟩
  · rw [hsv]
    exact Int.toNat_of_nonneg hs0
  · rw [hdv]
    exact Int.toNat_of_nonneg hd0
  · unfold Packet.to_bytes PeerAddr.to_bytes
    rw [hsb, hdb]

/-- Witness for amended C2 at the packet `(1, 65535, [9])`. -/
theorem to_bytes_layout_witness :
    ∃ sb db : List Byte, sb.length = ADDR_LEN ∧ db.length = ADDR_LEN ∧
      (intFromBytesLE sb : Int) = (Packet.mk 1 65535 [9]).saddr ∧
      (intFromBytesLE db : Int) = (Packet.mk 1 65535 [9]).daddr ∧
      (Packet.mk 1 65535 [9]).to_bytes = .ok (sb ++ db ++ (Packet.mk 1 65535 [9]).payload) :=
  to_bytes_layout (Packet.mk 1 65535 [9]) (by norm_num) (by norm_num) (by norm_num) (by norm_num)

/-- C1: for every packet whose addresses are valid 2-byte values and whose
payload has length at least 4 (so the serialized form has at least 8
bytes), serializing and then decoding returns exactly the original packet:
source address, destination address and payload are all preserved. -/
theorem packet_roundtrip (p : Packet) (hs0 : 0 ≤ p.saddr) (hs1 : p.saddr < 65536)
    (hd0 : 0 ≤ p.daddr) (hd1 : p.daddr < 65536) (hp : 4 ≤ p.payload.length) :
    ∃ bs : List Byte, p.to_bytes = .ok bs ∧ Packet.from_bytes bs = .ok p := by
  obtain ⟨sb, hsb, hsl, hsv⟩ := intToBytesLE_addr p.saddr.toNat (by omega)
  obtain ⟨db, hdb, hdl, hdv⟩ := intToBytesLE_addr p.daddr.toNat (by omega)
  rw [Int.toNat_of_nonneg hs0] at hsb
  rw [Int.toNat_of_nonneg hd0] at hdb
  refine ⟨sb ++ db ++ p.payload, ?_, ?_⟩
  · unfold Packet.to_bytes PeerAddr.to_bytes
    rw [hsb, hdb]
  · have hlen : ¬((sb ++ db ++ p.payload).length < Packet.header_size) := by
      have : Packet.header_size = 8 := by
        simp [Packet.header_size, Packet.magicBytes, ADDR_LEN]
      simp [this, hsl, hdl]
      omega
    have htake : (sb ++ db ++ p.payload).take ADDR_LEN = sb := by
      rw [List.append_assoc]
      exact List.take_left' (by simp [ADDR_LEN, hsl])
    have hdrop : (sb ++ db ++ p.payload).drop ADDR_LEN = db ++ p.payload := by
      rw [List.append_assoc]
      exact List.drop_left' (by simp [ADDR_LEN, hsl])
    have htake2 : (db ++ p.payload).take ADDR_LEN = db :=
      List.take_left' (by simp [ADDR_LEN, hdl])
    have hdrop2 : (db ++ p.payload).drop ADDR_LEN = p.payload :=
      List.drop_left' (by simp [ADDR_LEN, hdl])
    unfold Packet.from_bytes
    rw [if_neg hlen, htake, hdrop, htake2, hdrop2,
      PeerAddr.from_bytes_check, PeerAddr.from_bytes_check,
      if_pos (by rw [hsv]; omega), if_pos (by rw [hdv]; omega), hsv, hdv,
      Int.toNat_of_nonneg hs0, Int.toNat_of_nonneg hd0]

/-- Witness for C1 at the packet `(0, 42, [104, 105, 33, 33])`. -/
theorem packet_roundtrip_witness :
    ∃ bs : List Byte,
      (Packet.mk 0 42 [104, 105, 33, 33]).to_bytes = .ok bs ∧
      Packet.from_bytes bs = .ok (Packet.mk 0 42 [104, 105, 33, 33]) :=
  packet_roundtrip (Packet.mk 0 42 [104, 105, 33, 33])
    (by norm_num) (by norm_num) (by norm_num) (by norm_num) (by decide)

end Iso

namespace AbstractTelegram

/-- Counterexample to C3: after `queue_request`'s enqueue step completes
(the request sits in the FIFO queue, its future unresolved because the
request has been neither dispatched nor completed), the caller coroutine
cannot take a step — `return await request.future` keeps it suspended —
so `queue_request` does not return to the caller after the enqueue
operation; it blocks until the request completes. -/
theorem queue_request_blocks_until_resolved :
    qrStep ⟨"sendMessage", [("chat_id", JSONAtomic.int 5)]⟩
        { queue := [], future := none, phase := .start } =
      some { queue := [⟨"sendMessage", [("chat_id", JSONAtomic.int 5)]⟩],
             future := none, phase := .enqueued } ∧
    qrStep ⟨"sendMessage", [("chat_id", JSONAtomic.int 5)]⟩
        { queue := [⟨"sendMessage", [("chat_id", JSONAtomic.int 5)]⟩],
          future := none, phase := .enqueued } = none :=
  ⟨rfl, rfl⟩

/-- C3 (amended): `queue_request` creates an unresolved future, appends
the request at the tail of the FIFO queue (the enqueue itself never
blocks), then awaits that future: the caller stays suspended while the
future is unresolved and resumes only when the dispatch loop resolves it,
receiving the future's value — the result is returned, not the handle. -/
theorem queue_request_semantics (req : QueuedRequest) (q : List QueuedRequest)
    (r : Except CallError JSONAtomic) :
    qrStep req { queue := q, future := none, phase := .start } =
      some { queue := q ++ [req], future := none, phase := .enqueued } ∧
    qrStep req { queue := q, future := none, phase := .enqueued } = none ∧
    qrStep req { queue := q, future := some r, phase := .enqueued } =
      some { queue := q, future := some r, phase := .returned r } :=
  ⟨rfl, rfl, rfl⟩

/-- Counterexample to C4: two credentials, both off cooldown.  The first
dispatch at instant 1 selects credential 0 and stamps it.  At instant 2
both are again eligible; the code's scan (`for token in cycle(self.tokens)`
rebuilt per request) selects credential 0 again, while the round-robin
scan the claim describes — resuming after the previously selected
credential — would select credential 1.  So the loop restarts at the first
credential instead of resuming where the previous scan left off. -/
theorem dispatch_scan_restarts :
    scanSelect 1 [⟨"a", 0⟩, ⟨"b", 0⟩] = some (0, [⟨"a", 1⟩, ⟨"b", 0⟩]) ∧
    (scanSelect 2 [⟨"a", 1⟩, ⟨"b", 0⟩]).map Prod.fst = some 0 ∧
    scanSelectResumed 2 [⟨"a", 1⟩, ⟨"b", 0⟩] 1 = some 1 := by
  refine ⟨?_, ?_, ?_⟩ <;>
    norm_num [scanSelect, scanSelectResumed, tokenEligible, api_ratelimit_secs,
      List.range_succ]

/-- C4 (amended): for each dequeued request the dispatch loop scans the
credential pool from the first credential (not resuming from the previous
scan), selects the first credential whose cooldown has elapsed — every
earlier credential in the pool is still cooling down — and sets that
credential's `last_used` to the selection instant, leaving all other
credentials unchanged. -/
theorem scanSelect_spec (now : ℚ) (tokens : List BotToken) :
    ∀ ts i, scanSelect now tokens = some (i, ts) →
    ∃ t, tokens[i]? = some t ∧ tokenEligible now t = true ∧
      (∀ j t', j < i → tokens[j]? = some t' → tokenEligible now t' = false) ∧
      ts = tokens.take i ++ ({ t with last_used := now } :: tokens.drop (i + 1)) := by
  induction tokens with
  | nil => intro ts i h; simp [scanSelect] at h
  | cons t rest ih =>
    intro ts i h
    cases he : tokenEligible now t with
    | true =>
      simp only [scanSelect, he, if_true, Option.some.injEq, Prod.mk.injEq] at h
      obtain ⟨hi, hts⟩ := h
      subst hi
      subst hts
      exact ⟨t, by simp, he, fun j t' hj _ => absurd hj (by omega), by simp⟩
    | false =>
      simp only [scanSelect, he, Bool.false_eq_true, if_false, Option.map_eq_some',
        Prod.mk.injEq] at h
      obtain ⟨⟨i', ts'⟩, hrec, hi, hts⟩ := h
      subst hi
      subst hts
      obtain ⟨u, hu, hue, hprev, hts'⟩ := ih ts' i' hrec
      refine ⟨u, by simpa using hu, hue, ?_, ?_⟩
      · intro j t' hj hjt
        cases j with
        | zero =>
          simp only [List.getElem?_cons_zero, Option.some.injEq] at hjt
          subst hjt
          exact he
        | succ j' =>
          exact hprev j' t' (by omega) (by simpa using hjt)
      · simp only [List.take_succ_cons, List.drop_succ_cons, List.cons_append,
          List.cons.injEq]
        exact ⟨trivial, hts'⟩

/-- Witness for amended C4: one fresh credential at instant 1. -/
theorem scanSelect_spec_witness :
    ∃ t, ([⟨"a", 0⟩] : List BotToken)[0]? = some t ∧ tokenEligible 1 t = true ∧
      (∀ j t', j < 0 → ([⟨"a", 0⟩] : List BotToken)[j]? = some t' →
        tokenEligible 1 t' = false) ∧
      [⟨"a", 1⟩] = ([⟨"a", 0⟩] : List BotToken).take 0 ++
        ({ t with last_used := 1 } :: ([⟨"a", 0⟩] : List BotToken).drop (0 + 1)) :=
  scanSelect_spec 1 [⟨"a", 0⟩] [⟨"a", 1⟩] 0
    (by norm_num [scanSelect, tokenEligible, api_ratelimit_secs])

/-- C5: when the backend's raw `getUpdates` result is non-empty,
`poll_posts` sets the consumption offset to the update identifier of the
last raw item — whether or not some items are later filtered out for
lacking a text body — and when the raw result is empty it returns the
empty list with the offset unchanged, without error. -/
theorem poll_posts_offset_spec (off : Int) (res : List Update) (h : res ≠ []) :
    (poll_posts off res).1 = (res.getLast h).update_id ∧
    poll_posts off ([] : List Update) = (off, []) := by
  refine ⟨?_, rfl⟩
  cases res with
  | nil => exact absurd rfl h
  | cons u rest => rfl

/-- Witness for C5: one raw update without a text body (so it is filtered
out of the returned messages) still advances the offset to its update
identifier. -/
theorem poll_posts_offset_witness :
    (poll_posts 0 [⟨7, ⟨none, 3, 4⟩⟩]).1 =
      (([⟨7, ⟨none, 3, 4⟩⟩] : List Update).getLast (by simp)).update_id ∧
    poll_posts 0 ([] : List Update) = (0, []) :=
  poll_posts_offset_spec 0 [⟨7, ⟨none, 3, 4⟩⟩] (by simp)

/-- C9: the spawned `request_task` always resolves the request's future
(`isSome`) — it catches whatever `method` raises, so nothing is thrown
into the dispatch loop that spawned it and other requests are unaffected;
when the backend response reports failure the future receives
`TelegramError` with the response's numeric code and message; when the
transport fails the future receives `NetworkError`; and on success the
future receives the response's result value. -/
theorem request_task_delivers (transport : Except Unit HttpResponse) :
    (request_task transport).isSome = true ∧
    (∀ resp, transport = .ok resp → resp.ok = false →
      request_task transport =
        some (.error (.telegramError resp.error_code resp.description))) ∧
    (transport = .error () →
      request_task transport = some (.error .networkError)) ∧
    (∀ resp, transport = .ok resp → resp.ok = true →
      request_task transport = some (.ok resp.result)) := by
  refine ⟨?_, ?_, ?_, ?_⟩
  · cases transport with
    | error e => rfl
    | ok resp => cases hok : resp.ok <;> simp [request_task, method, hok]
  · rintro resp rfl hok
    simp [request_task, method, hok]
  · rintro rfl
    rfl
  · rintro resp rfl hok
    simp [request_task, method, hok]

/-- Witness for C9: a backend-reported failure with code 400 resolves the
future with the typed API error; a transport failure resolves it with the
typed network error. -/
theorem request_task_delivers_witness :
    request_task (.ok ⟨false, 400, "Bad Request", .null⟩) =
      some (.error (.telegramError 400 "Bad Request")) ∧
    request_task (.error ()) = some (.error .networkError) :=
  ⟨(request_task_delivers (.ok ⟨false, 400, "Bad Request", .null⟩)).2.1 _ rfl rfl,
   (request_task_delivers (.error ())).2.2.1 rfl⟩

end AbstractTelegram
